import Mathlib

/-!
Shallow embedding of the `open-chat-ui-n8n` chat widget core.

Source files embedded:
* `src/hooks/use-chat.ts` — the generic `useChat` hook ("Variant A"):
  conversation state (`messages`, `input`, `isLoading`, `error`, the
  abort-controller ref) and the operations `stop`, `append` (with its
  `onDownloadProgress` handler and completion handling) and `handleSubmit`.
* `src/components/chat.tsx` — the structured-event `Chat` component
  ("Variant B"): newline-delimited JSON record processing in its
  `onDownloadProgress` handler and the surrounding `handleSubmit` flow.

Modelling conventions:
* The external `nanoid` id generator is modelled as an injective supply
  `nanoid : Nat → String`; each state carries the next supply index.
* `Date.now` is modelled as a `clock : Nat` counter.
* The host `JSON.parse` / `JSON.stringify` builtins (Variant B) are taken as
  parameters of the handler; theorems hypothesise their values on the
  concrete lines involved.
* Asynchronous execution is linearised: a run of `append` is its synchronous
  prologue, then a list of delivered progress payloads, then the settlement
  of the awaited promise (success, cancellation, or failure).  Callback
  invocations (`onResponse`, `onFinish`, `onError`) are recorded in an event
  list.
-/

namespace OpenChat

/-- Role of a chat message (`"user" | "assistant" | "system"` in the source). -/
inductive Role where
  | user
  | assistant
  | system
  deriving DecidableEq, Repr

/-- Part type (`"text" | "image" | "file"` in the source). -/
inductive PartType where
  | text
  | image
  | file
  deriving DecidableEq, Repr

/-- `ChatMessagePart` from `use-chat.ts` (optional fields become `Option`). -/
structure ChatMessagePart where
  type : PartType
  text : Option String := none
  image_url : Option String := none
  file_url : Option String := none
  deriving DecidableEq, Repr

/-- `ChatMessage` from `use-chat.ts` (`createdAt` timestamps are clock ticks). -/
structure ChatMessage where
  id : String
  role : Role
  parts : List ChatMessagePart
  createdAt : Option Nat := none
  deriving DecidableEq, Repr

/-- A text part `\x7b type: "text", text: t \x7d` as built by the hook. -/
def textPart (t : String) : ChatMessagePart :=
  { type := PartType.text, text := some t }

/-- Model of the external `nanoid` library: an injective fresh-id supply. -/
def nanoid (n : Nat) : String :=
  String.mk (List.replicate (n + 1) 'x')

/-- The hook's state: the four `useState` cells, the `abortControllerRef`
(`Option Nat`, a controller identity or `null`), and the supplies for ids,
timestamps and controller identities. -/
structure HookState where
  messages : List ChatMessage
  input : String
  isLoading : Bool
  error : Option String
  abortCtrl : Option Nat
  nextId : Nat
  clock : Nat
  nextCtrl : Nat
  deriving DecidableEq, Repr

/-- Events recording the hook's callback invocations during a run. -/
inductive AEvent where
  | response (payload : String)
  | finish (message : ChatMessage)
  | errorCb (e : String)
  deriving DecidableEq, Repr

/-- How the awaited `axios.post` settles. -/
inductive Outcome where
  | success
  | canceled
  | failure (e : String)
  deriving DecidableEq, Repr

/-- `stop` from `use-chat.ts` (lines 110–116): if the abort-controller ref is
non-null, abort it, null the ref and clear `isLoading`; otherwise nothing. -/
def stop (s : HookState) : HookState :=
  match s.abortCtrl with
  | some _ => { s with abortCtrl := none, isLoading := false }
  | none => s

/-- Construction of the user message at the top of `append` (lines 124–133):
a raw string gets a fresh id, a single text part and a timestamp; a
caller-supplied `ChatMessage` is taken as-is. -/
def mkUserMessage : Sum String ChatMessage → HookState → ChatMessage × HookState
  | Sum.inl str, s =>
      ({ id := nanoid s.nextId, role := Role.user, parts := [textPart str],
         createdAt := some s.clock },
       { s with nextId := s.nextId + 1, clock := s.clock + 1 })
  | Sum.inr m, s => (m, s)

/-- The closure-captured values of one `append` invocation: the user message,
`assistantMessageId`, the `assistantMessage` placeholder object as created
(never mutated afterwards — `setMessages` builds new objects), and the
abort-controller identity. -/
structure AppendCtx where
  userMessage : ChatMessage
  assistantMessageId : String
  assistantMessage : ChatMessage
  abortController : Nat
  deriving DecidableEq, Repr

/-- Synchronous prologue of `append` (lines 124–157): build the user message,
set `isLoading`, clear `error`, build the empty assistant placeholder, append
both messages, clear `input` when the argument was a raw string, and install
a fresh abort controller in the ref. -/
def appendStart (message : Sum String ChatMessage) (s : HookState) :
    AppendCtx × HookState :=
  let um := mkUserMessage message s
  let userMessage := um.1
  let s1 := um.2
  let s2 := { s1 with isLoading := true, error := none }
  let assistantMessageId := nanoid s2.nextId
  let assistantMessage : ChatMessage :=
    { id := assistantMessageId, role := Role.assistant,
      parts := [textPart ""], createdAt := some s2.clock }
  let s3 := { s2 with nextId := s2.nextId + 1, clock := s2.clock + 1 }
  let s4 := { s3 with messages := s3.messages ++ [userMessage, assistantMessage] }
  let s5 := match message with
    | Sum.inl _ => { s4 with input := "" }
    | Sum.inr _ => s4
  let ctrl := s5.nextCtrl
  let s6 := { s5 with nextCtrl := s5.nextCtrl + 1, abortCtrl := some ctrl }
  (⟨userMessage, assistantMessageId, assistantMessage, ctrl⟩, s6)

/-- Per-message update performed by the progress handler: the message whose id
is `assistantMessageId` gets its parts replaced by a single text part holding
the payload; every other message is untouched. -/
def updA (assistantMessageId payload : String) (msg : ChatMessage) : ChatMessage :=
  if msg.id = assistantMessageId then { msg with parts := [textPart payload] }
  else msg

/-- `onDownloadProgress` of the hook (lines 166–183) for one delivered
notification carrying buffer `payload` (the xhr's current response text):
fire `onResponse` with the raw text, then overwrite the placeholder's parts
with one text part holding it.  Note the source guards only on the xhr being
present; it does not consult `abortControllerRef`. -/
def onDownloadProgressA (assistantMessageId payload : String) (s : HookState) :
    HookState × List AEvent :=
  ({ s with messages := s.messages.map (updA assistantMessageId payload) },
   [AEvent.response payload])

/-- Deliver a list of progress notifications in order, collecting events. -/
def applyProgressList (assistantMessageId : String) :
    List String → HookState → HookState × List AEvent
  | [], s => (s, [])
  | p :: rest, s =>
      let r1 := onDownloadProgressA assistantMessageId p s
      let r2 := applyProgressList assistantMessageId rest r1.1
      (r2.1, r1.2 ++ r2.2)

/-- Settlement of the awaited request (lines 196–214): on success fire
`onFinish` with the captured `assistantMessage` object; on a cancellation
only log; on any other failure record the error and fire `onError`; in every
case the `finally` block clears `isLoading` and nulls the ref. -/
def appendSettle (ctx : AppendCtx) (outcome : Outcome) (s : HookState) :
    HookState × List AEvent :=
  match outcome with
  | Outcome.success =>
      ({ s with isLoading := false, abortCtrl := none },
       [AEvent.finish ctx.assistantMessage])
  | Outcome.canceled =>
      ({ s with isLoading := false, abortCtrl := none }, [])
  | Outcome.failure e =>
      ({ s with error := some e, isLoading := false, abortCtrl := none },
       [AEvent.errorCb e])

/-- One linearised run of `append`: prologue, delivered progress payloads,
settlement. -/
def runAppend (message : Sum String ChatMessage) (payloads : List String)
    (outcome : Outcome) (s : HookState) : HookState × List AEvent :=
  let st := appendStart message s
  let mid := applyProgressList st.1.assistantMessageId payloads st.2
  let fin := appendSettle st.1 outcome mid.1
  (fin.1, mid.2 ++ fin.2)

/-- First message with the given id, as the UI and the `map`-by-id update see
it. -/
def findMsg (mid : String) (msgs : List ChatMessage) : Option ChatMessage :=
  msgs.find? (fun m => m.id = mid)

/-- The whitespace characters recognised by the host `trim` (the common core
of the JavaScript WhiteSpace and LineTerminator sets). -/
def isJsWhitespace (c : Char) : Bool :=
  c = ' ' || c = '\t' || c = '\n' || c = '\r' || c = '\x0b' || c = '\x0c'

/-- Model of the host `String.prototype.trim`: strip leading and trailing
whitespace. -/
def jsTrim (s : String) : String :=
  String.mk (((s.data.dropWhile isJsWhitespace).reverse.dropWhile
      isJsWhitespace).reverse)

/-- The `content` chosen by the hook's `handleSubmit` (line 229): the string
argument when one was passed, otherwise the current `input`. -/
def contentOf (e : Option String) (s : HookState) : String :=
  match e with
  | some str => str
  | none => s.input

/-- `handleSubmit` of the hook (lines 223–236): pick the content, return
immediately when its trim is empty (falsy), otherwise `append` it and then
clear `input`.  The payloads and outcome parametrise the awaited run. -/
def handleSubmitA (e : Option String) (payloads : List String)
    (outcome : Outcome) (s : HookState) : HookState × List AEvent :=
  let content := contentOf e s
  if jsTrim content = "" then (s, [])
  else
    let r := runAppend (Sum.inl content) payloads outcome s
    ({ r.1 with input := "" }, r.2)

/-! ## Variant B — the `Chat` component of `src/components/chat.tsx` -/

/-- `MetadataChatResponseN8N` from `chat.tsx`. -/
structure MetadataChatResponseN8N where
  nodeId : String
  nodeName : String
  itemIndex : Nat
  runIndex : Nat
  timestamp : Nat
  deriving DecidableEq, Repr

/-- `ChatResponseN8N` from `chat.tsx`; `metadata` is optional at runtime
(records parsed from the wire may omit it). -/
structure ChatResponseN8N where
  type : String
  content : String
  metadata : Option MetadataChatResponseN8N := none
  deriving DecidableEq, Repr

/-- A content part of the component's local `ChatMessage` interface:
`\x7b type: "text"; text: string \x7d`. -/
structure BPart where
  type : String
  text : String
  deriving DecidableEq, Repr

/-- The component's local `ChatMessage` interface. -/
structure BMessage where
  id : String
  role : String
  parts : List BPart
  deriving DecidableEq, Repr

/-- The component's conversation state.  The source `Chat` component declares
a single `useState` cell, `messages`; the `error` field here stands for the
conversation error state the specification speaks of, and no operation of the
component ever writes it. -/
structure BState where
  messages : List BMessage
  error : Option String
  deriving DecidableEq, Repr

/-- Split a character list at newline characters, accumulating the current
piece in reverse. -/
def splitLinesAux : List Char → List Char → List String
  | [], acc => [String.mk acc.reverse]
  | c :: cs, acc =>
      if c = '\n' then String.mk acc.reverse :: splitLinesAux cs []
      else splitLinesAux cs (c :: acc)

/-- Model of the host `String.prototype.split("\n")`: the pieces between
newlines, keeping empty pieces (`""` splits to `[""]`, a trailing newline
yields a trailing empty piece). -/
def jsSplitNl (s : String) : List String :=
  splitLinesAux s.data []

/-- `response.split("\n").filter(Boolean)`: split the buffer on newlines and
drop the empty (falsy) lines. -/
def linesOf (buffer : String) : List String :=
  (jsSplitNl buffer).filter (fun l => l ≠ "")

/-- The JavaScript `a || b` on strings: `b` when `a` is empty (falsy),
otherwise `a`. -/
def jsStrOr (a b : String) : String :=
  if a = "" then b else a

/-- Per-message update of the component's item branch: the placeholder's
parts are replaced by a single text part holding
`msg.parts[0].text + content || ""`. -/
def updB (assistantMessageId content : String) (msg : BMessage) : BMessage :=
  if msg.id = assistantMessageId then
    { msg with parts :=
        [⟨"text", jsStrOr (((msg.parts.head?.map BPart.text).getD "") ++ content) ""⟩] }
  else msg

/-- `onDownloadProgress` of the component (lines 72–108), parametrised by the
host `JSON.parse` (`parse`, which may fail) and `JSON.stringify`
(`stringify`):  split the buffer, drop empty lines, parse every line (the
first malformed line aborts the handler), look only at the last record; on
`"item"` append its content to the placeholder's text; on `"error"` throw an
Error carrying the serialized record; other types fall through. -/
def handleProgressB (parse : String → Except String ChatResponseN8N)
    (stringify : ChatResponseN8N → String) (assistantMessageId buffer : String)
    (msgs : List BMessage) : Except String (List BMessage) :=
  match (linesOf buffer).mapM parse with
  | Except.error e => Except.error e
  | Except.ok parsed =>
      let lastResponse := parsed.getLast?
      let msgs1 :=
        match lastResponse with
        | some r =>
            if r.type = "item" then msgs.map (updB assistantMessageId r.content)
            else msgs
        | none => msgs
      match lastResponse with
      | some r =>
          if r.type = "error" then Except.error (stringify r) else Except.ok msgs1
      | none => Except.ok msgs1

/-- Deliver a list of progress buffers in order.  When one handler invocation
throws, the messages written by the earlier ticks persist, the remaining
ticks never run, and the thrown error is returned alongside. -/
def processTicks (parse : String → Except String ChatResponseN8N)
    (stringify : ChatResponseN8N → String) (assistantMessageId : String) :
    List String → List BMessage → List BMessage × Option String
  | [], msgs => (msgs, none)
  | b :: rest, msgs =>
      match handleProgressB parse stringify assistantMessageId b msgs with
      | Except.ok msgs1 => processTicks parse stringify assistantMessageId rest msgs1
      | Except.error e => (msgs, some e)

/-- `handleSubmit` of the component (lines 48–114): append the user message
and the empty assistant placeholder, run the request's progress ticks, and
catch any failure with a bare `console.error` (returned as the second
component; the conversation state is not touched by the catch). -/
def runBSubmit (parse : String → Except String ChatResponseN8N)
    (stringify : ChatResponseN8N → String) (text : String) (n : Nat)
    (ticks : List String) (s : BState) : BState × Option String :=
  let userMessage : BMessage :=
    ⟨nanoid n, "user", [⟨"text", text⟩]⟩
  let assistantMessageId := nanoid (n + 1)
  let assistantMessage : BMessage :=
    ⟨assistantMessageId, "assistant", [⟨"text", ""⟩]⟩
  let msgs0 := s.messages ++ [userMessage, assistantMessage]
  let r := processTicks parse stringify assistantMessageId ticks msgs0
  ({ s with messages := r.1 }, r.2)

/-! ## Concrete witnesses' data -/

/-- The hook's state at mount with no seed messages (`initialMessages = []`). -/
def initState : HookState :=
  { messages := [], input := "", isLoading := false, error := none,
    abortCtrl := none, nextId := 0, clock := 0, nextCtrl := 0 }

/-- The hook's state right after the synchronous prologue of
`append("hi")` from the initial state: user message `nanoid 0`, assistant
placeholder `nanoid 1`, a live abort controller. -/
def stateAfterStart : HookState :=
  (appendStart (Sum.inl "hi") initState).2

/-- Projection of the `onFinish` invocations out of an event list. -/
def finishMessage : AEvent → Option ChatMessage
  | AEvent.finish m => some m
  | _ => none

/-- Every id in the message list was drawn from the supply below index `n`
(the hook's invariant when all messages were created by the hook itself). -/
def IdsFrom (msgs : List ChatMessage) (n : Nat) : Prop :=
  ∀ m ∈ msgs, ∃ k, k < n ∧ m.id = nanoid k

/-- A wire line `\x7b"type":"item","content":"Hi"\x7d`. -/
def itemLine1 : String := "\x7b\"type\":\"item\",\"content\":\"Hi\"\x7d"

/-- A wire line `\x7b"type":"item","content":" there"\x7d`. -/
def itemLine2 : String := "\x7b\"type\":\"item\",\"content\":\" there\"\x7d"

/-- A wire line `\x7b"type":"error","content":"boom"\x7d`. -/
def errLine : String := "\x7b\"type\":\"error\",\"content\":\"boom\"\x7d"

/-- A concrete instance of the host `JSON.parse` on the three wire lines
above (anything else is a syntax error). -/
def parseFix (s : String) : Except String ChatResponseN8N :=
  if s = itemLine1 then Except.ok ⟨"item", "Hi", none⟩
  else if s = itemLine2 then Except.ok ⟨"item", " there", none⟩
  else if s = errLine then Except.ok ⟨"error", "boom", none⟩
  else Except.error "SyntaxError"

/-- A concrete instance of the host `JSON.stringify` on parsed records. -/
def stringifyFix (r : ChatResponseN8N) : String :=
  "\x7b\"type\":\"" ++ r.type ++ "\",\"content\":\"" ++ r.content ++ "\"\x7d"

/-! ## Helper lemmas -/

theorem nanoid_inj {m n : Nat} (h : nanoid m = nanoid n) : m = n := by
  have hlen := congrArg (fun s => s.data.length) h
  simpa [nanoid] using hlen

theorem updA_id (aid p : String) (m : ChatMessage) : (updA aid p m).id = m.id := by
  unfold updA
  split <;> rfl

theorem findMsg_map_updA (aid p : String) (msgs : List ChatMessage) :
    findMsg aid (msgs.map (updA aid p)) =
      (findMsg aid msgs).map (fun m => { m with parts := [textPart p] }) := by
  induction msgs with
  | nil => rfl
  | cons m rest ih =>
      by_cases h : m.id = aid
      · simp [findMsg, List.find?, updA, h]
      · simpa [findMsg, List.find?, updA, h] using ih

/-- The state after a list of progress deliveries: only `messages` changes,
by folding the by-id overwrite, and the events are the `onResponse` calls in
order. -/
theorem applyProgressList_eq (aid : String) (ps : List String) (s : HookState) :
    applyProgressList aid ps s =
      ({ s with messages := ps.foldl (fun ms p => ms.map (updA aid p)) s.messages },
       ps.map AEvent.response) := by
  induction ps generalizing s with
  | nil => rfl
  | cons p rest ih =>
      simp [applyProgressList, onDownloadProgressA, ih]

theorem findMsg_foldl_updA (aid : String) (ps : List String)
    (msgs : List ChatMessage) (m₀ : ChatMessage)
    (h : findMsg aid msgs = some m₀) :
    findMsg aid (ps.foldl (fun ms p => ms.map (updA aid p)) msgs) =
      some (match ps.getLast? with
        | some p => { m₀ with parts := [textPart p] }
        | none => m₀) := by
  induction ps generalizing msgs m₀ with
  | nil => simpa using h
  | cons p rest ih =>
      have h1 : findMsg aid (msgs.map (updA aid p)) =
          some { m₀ with parts := [textPart p] } := by
        rw [findMsg_map_updA, h]
        rfl
      rcases rest with _ | ⟨q, rest'⟩
      · simpa [List.foldl] using h1
      · have := ih (msgs.map (updA aid p)) { m₀ with parts := [textPart p] } h1
        simpa [List.foldl, List.getLast?] using this

theorem jsStrOr_empty_right (s : String) : jsStrOr s "" = s := by
  unfold jsStrOr
  split <;> simp_all

theorem updB_of_ne (aid c : String) (m : BMessage) (h : ¬ m.id = aid) :
    updB aid c m = m := by
  simp [updB, h]

theorem map_updB_frame (aid c : String) (ms : List BMessage)
    (h : ∀ x ∈ ms, x.id ≠ aid) : ms.map (updB aid c) = ms := by
  induction ms with
  | nil => rfl
  | cons m rest ih =>
      have hm : ¬ m.id = aid := h m (by simp)
      have hrest : ∀ x ∈ rest, x.id ≠ aid := fun x hx => h x (by simp [hx])
      simp [updB_of_ne aid c m hm, ih hrest]

theorem jsTrim_of_all_whitespace (s : String)
    (h : ∀ c ∈ s.data, isJsWhitespace c) : jsTrim s = "" := by
  have h1 : s.data.dropWhile isJsWhitespace = [] :=
    List.dropWhile_eq_nil_iff.mpr h
  simp [jsTrim, h1]

theorem updA_idem (aid p : String) (m : ChatMessage) :
    updA aid p (updA aid p m) = updA aid p m := by
  by_cases h : m.id = aid
  · simp [updA, h]
  · simp [updA, h]

theorem stop_messages (s : HookState) : (stop s).messages = s.messages := by
  unfold stop
  split <;> rfl

theorem stop_abortCtrl (s : HookState) : (stop s).abortCtrl = none := by
  unfold stop
  split <;> simp_all

theorem appendStart_error (message : Sum String ChatMessage) (s : HookState) :
    (appendStart message s).2.error = none := by
  cases message <;> rfl

theorem appendStart_isLoading (message : Sum String ChatMessage) (s : HookState) :
    (appendStart message s).2.isLoading = true := by
  cases message <;> rfl

theorem appendStart_messages (message : Sum String ChatMessage) (s : HookState) :
    (appendStart message s).2.messages =
      s.messages ++ [(appendStart message s).1.userMessage,
        (appendStart message s).1.assistantMessage] := by
  cases message <;> rfl

theorem appendStart_assistant_parts (message : Sum String ChatMessage)
    (s : HookState) :
    (appendStart message s).1.assistantMessage.parts = [textPart ""] := by
  cases message <;> rfl

theorem appendStart_assistant_role (message : Sum String ChatMessage)
    (s : HookState) :
    (appendStart message s).1.assistantMessage.role = Role.assistant := by
  cases message <;> rfl

theorem appendStart_assistant_id (message : Sum String ChatMessage)
    (s : HookState) :
    (appendStart message s).1.assistantMessage.id =
      (appendStart message s).1.assistantMessageId := by
  cases message <;> rfl

theorem appendStart_assistant_id_inl (str : String) (s : HookState) :
    (appendStart (Sum.inl str) s).1.assistantMessageId = nanoid (s.nextId + 1) :=
  rfl

theorem appendStart_assistant_id_inr (u : ChatMessage) (s : HookState) :
    (appendStart (Sum.inr u) s).1.assistantMessageId = nanoid s.nextId :=
  rfl

theorem appendStart_user_inl (str : String) (s : HookState) :
    (appendStart (Sum.inl str) s).1.userMessage =
      { id := nanoid s.nextId, role := Role.user, parts := [textPart str],
        createdAt := some s.clock } :=
  rfl

theorem appendStart_user_inr (u : ChatMessage) (s : HookState) :
    (appendStart (Sum.inr u) s).1.userMessage = u :=
  rfl

/-- The freshly drawn assistant id differs from every id in the prior list
and from the user message's id, provided every prior id (and, for a
caller-supplied user message, its id) was drawn below the supply index. -/
theorem appendStart_fresh (message : Sum String ChatMessage) (s : HookState)
    (h1 : IdsFrom s.messages s.nextId)
    (h2 : ∀ u, message = Sum.inr u → ∃ k, k < s.nextId ∧ u.id = nanoid k) :
    (∀ m ∈ s.messages, (appendStart message s).1.assistantMessageId ≠ m.id) ∧
      (appendStart message s).1.assistantMessageId ≠
        (appendStart message s).1.userMessage.id := by
  cases message with
  | inl str =>
      refine ⟨fun m hm => ?_, fun hcontra => ?_⟩
      · obtain ⟨k, hk, hid⟩ := h1 m hm
        rw [appendStart_assistant_id_inl, hid]
        intro hc
        exact absurd (nanoid_inj hc) (by omega)
      · rw [appendStart_assistant_id_inl, appendStart_user_inl] at hcontra
        exact absurd (nanoid_inj hcontra) (by omega)
  | inr u =>
      obtain ⟨k, hk, hid⟩ := h2 u rfl
      refine ⟨fun m hm => ?_, fun hcontra => ?_⟩
      · obtain ⟨j, hj, hjd⟩ := h1 m hm
        rw [appendStart_assistant_id_inr, hjd]
        intro hc
        exact absurd (nanoid_inj hc) (by omega)
      · rw [appendStart_assistant_id_inr, appendStart_user_inr, hid] at hcontra
        exact absurd (nanoid_inj hcontra) (by omega)

theorem findMsg_append (aid : String) (l₁ l₂ : List ChatMessage)
    (h : ∀ m ∈ l₁, m.id ≠ aid) : findMsg aid (l₁ ++ l₂) = findMsg aid l₂ := by
  induction l₁ with
  | nil => rfl
  | cons m rest ih =>
      have hm : ¬ m.id = aid := h m (by simp)
      have hrest : ∀ x ∈ rest, x.id ≠ aid := fun x hx => h x (by simp [hx])
      simpa [findMsg, List.find?, hm] using ih hrest

/-- Right after the prologue, looking up the assistant id finds exactly the
placeholder object. -/
theorem findMsg_appendStart (message : Sum String ChatMessage) (s : HookState)
    (h1 : IdsFrom s.messages s.nextId)
    (h2 : ∀ u, message = Sum.inr u → ∃ k, k < s.nextId ∧ u.id = nanoid k) :
    findMsg (appendStart message s).1.assistantMessageId
        (appendStart message s).2.messages =
      some (appendStart message s).1.assistantMessage := by
  obtain ⟨hfresh, huser⟩ := appendStart_fresh message s h1 h2
  rw [appendStart_messages]
  rw [findMsg_append _ _ _ (fun m hm => fun hc => hfresh m hm hc.symm)]
  have hu : ¬ (appendStart message s).1.userMessage.id =
      (appendStart message s).1.assistantMessageId :=
    fun hc => huser hc.symm
  simp [findMsg, List.find?, hu, appendStart_assistant_id]

theorem chatMessage_eta_parts (m : ChatMessage) (ps : List ChatMessagePart)
    (h : m.parts = ps) : { m with parts := ps } = m := by
  cases m
  simp_all

theorem filterMap_finishMessage_responses (ps : List String) :
    (ps.map AEvent.response).filterMap finishMessage = [] := by
  induction ps with
  | nil => rfl
  | cons p rest ih => simp [finishMessage, ih]

/-! ## Claims -/

/-- C10: calling `stop` when no request is in flight (the abort-controller
ref is `null`) is a complete no-op — messages, input, `isLoading` and
`error` are all left unchanged (the whole state is unchanged). -/
theorem claim10_stop_noop (s : HookState) (h : s.abortCtrl = none) :
    stop s = s := by
  unfold stop
  rw [h]

/-- Witness for C10 at the initial state, which has no active handle. -/
theorem claim10_stop_noop_witness :
    initState.abortCtrl = none ∧ stop initState = initState :=
  ⟨rfl, claim10_stop_noop initState rfl⟩

/-- C9: submitting content that is empty or consists only of whitespace
through the form-submit wrapper performs no append and leaves the whole
state (messages, input, `isLoading`, `error`) unchanged, firing no
callback. -/
theorem claim9_empty_submit_noop (e : Option String) (payloads : List String)
    (outcome : Outcome) (s : HookState)
    (h : ∀ c ∈ (contentOf e s).data, isJsWhitespace c) :
    handleSubmitA e payloads outcome s = (s, []) := by
  have ht := jsTrim_of_all_whitespace _ h
  simp [handleSubmitA, ht]

/-- Witness for C9: submitting the two-space string changes nothing. -/
theorem claim9_empty_submit_noop_witness :
    handleSubmitA (some "  ") [] Outcome.success initState = (initState, []) :=
  claim9_empty_submit_noop (some "  ") [] Outcome.success initState (by decide)

/-- C8: a run terminated by user cancellation is a quiet no-op — `error`
ends unset, the error callback (and `onFinish`) is never invoked (only
`onResponse` events occur), and `isLoading` ends up `false`. -/
theorem claim8_cancel_quiet (message : Sum String ChatMessage)
    (payloads : List String) (s : HookState) :
    (runAppend message payloads Outcome.canceled s).1.error = none ∧
      (runAppend message payloads Outcome.canceled s).1.isLoading = false ∧
      (runAppend message payloads Outcome.canceled s).2 =
        payloads.map AEvent.response := by
  refine ⟨?_, ?_, ?_⟩ <;>
    simp [runAppend, applyProgressList_eq, appendSettle, appendStart_error]

/-- C7: a run that fails for a reason other than cancellation records the
error, fires the error callback exactly once (after the `onResponse`
events), sets `isLoading` to `false`, and leaves the message list — hence
the assistant placeholder with whatever partial text had streamed in —
exactly as it was before settlement. -/
theorem claim7_failure_records_error (message : Sum String ChatMessage)
    (payloads : List String) (e : String) (s : HookState) :
    (runAppend message payloads (Outcome.failure e) s).1.error = some e ∧
      (runAppend message payloads (Outcome.failure e) s).1.isLoading = false ∧
      (runAppend message payloads (Outcome.failure e) s).1.messages =
        (applyProgressList (appendStart message s).1.assistantMessageId payloads
          (appendStart message s).2).1.messages ∧
      (runAppend message payloads (Outcome.failure e) s).2 =
        payloads.map AEvent.response ++ [AEvent.errorCb e] := by
  refine ⟨?_, ?_, ?_, ?_⟩ <;>
    simp [runAppend, applyProgressList_eq, appendSettle]

/-- C4: in Variant A each progress notification overwrites the placeholder's
sole text part with the raw payload verbatim — after any tick sequence
ending in payload `p` the placeholder's text is `p` (last write wins), and
delivering the same cumulative string twice is idempotent (the second
delivery leaves the state and event exactly as the first did). -/
theorem claim4_overwrite_last_write_wins (aid : String) (s : HookState)
    (ps : List String) (p : String) (m₀ : ChatMessage)
    (h : findMsg aid s.messages = some m₀) :
    findMsg aid (applyProgressList aid (ps ++ [p]) s).1.messages =
        some { m₀ with parts := [textPart p] } ∧
      onDownloadProgressA aid p (onDownloadProgressA aid p s).1 =
        onDownloadProgressA aid p s := by
  constructor
  · rw [applyProgressList_eq]
    have hf := findMsg_foldl_updA aid (ps ++ [p]) s.messages m₀ h
    simpa [List.getLast?_concat] using hf
  · have hmm : (s.messages.map (updA aid p)).map (updA aid p) =
        s.messages.map (updA aid p) := by
      rw [List.map_map]
      exact List.map_congr_left (fun m _ => updA_idem aid p m)
    simp [onDownloadProgressA, hmm]

/-- Witness for C4: payloads "He", "Hello", "Hello!" leave the placeholder
reading "Hello!". -/
theorem claim4_overwrite_last_write_wins_witness :
    findMsg (nanoid 1)
        (applyProgressList (nanoid 1) (["He", "Hello"] ++ ["Hello!"])
          stateAfterStart).1.messages =
      some { id := nanoid 1, role := Role.assistant,
             parts := [textPart "Hello!"], createdAt := some 1 } ∧
      onDownloadProgressA (nanoid 1) "Hello!"
          (onDownloadProgressA (nanoid 1) "Hello!" stateAfterStart).1 =
        onDownloadProgressA (nanoid 1) "Hello!" stateAfterStart :=
  claim4_overwrite_last_write_wins (nanoid 1) stateAfterStart ["He", "Hello"]
    "Hello!"
    { id := nanoid 1, role := Role.assistant, parts := [textPart ""],
      createdAt := some 1 }
    (by decide)

/-- C6: every call to `append` — with a raw string or a caller-supplied user
message — appends exactly two messages at the end of the list, the user
message first and then an assistant placeholder with a fresh unique id and
exactly one text part holding the empty string; no existing message is
removed or reordered, and a raw string becomes a user-role message with
that string as its sole text part. -/
theorem claim6_append_appends_two (message : Sum String ChatMessage)
    (s : HookState) (h1 : IdsFrom s.messages s.nextId)
    (h2 : ∀ u, message = Sum.inr u → ∃ k, k < s.nextId ∧ u.id = nanoid k) :
    (appendStart message s).2.messages =
        s.messages ++ [(appendStart message s).1.userMessage,
          (appendStart message s).1.assistantMessage] ∧
      (appendStart message s).1.assistantMessage.role = Role.assistant ∧
      (appendStart message s).1.assistantMessage.parts = [textPart ""] ∧
      (∀ m ∈ s.messages, (appendStart message s).1.assistantMessage.id ≠ m.id) ∧
      (appendStart message s).1.assistantMessage.id ≠
        (appendStart message s).1.userMessage.id ∧
      (∀ str, message = Sum.inl str →
        (appendStart message s).1.userMessage.role = Role.user ∧
          (appendStart message s).1.userMessage.parts = [textPart str]) := by
  obtain ⟨hfresh, huser⟩ := appendStart_fresh message s h1 h2
  refine ⟨appendStart_messages message s, appendStart_assistant_role message s,
    appendStart_assistant_parts message s, ?_, ?_, ?_⟩
  · intro m hm
    rw [appendStart_assistant_id]
    exact hfresh m hm
  · rw [appendStart_assistant_id]
    exact huser
  · intro str hstr
    subst hstr
    exact ⟨rfl, rfl⟩

/-- Witness for C6 at the initial state with a raw-string send. -/
theorem claim6_append_appends_two_witness :
    (appendStart (Sum.inl "hi") initState).2.messages =
        initState.messages ++ [(appendStart (Sum.inl "hi") initState).1.userMessage,
          (appendStart (Sum.inl "hi") initState).1.assistantMessage] ∧
      (appendStart (Sum.inl "hi") initState).1.assistantMessage.role =
        Role.assistant ∧
      (appendStart (Sum.inl "hi") initState).1.assistantMessage.parts =
        [textPart ""] ∧
      (∀ m ∈ initState.messages,
        (appendStart (Sum.inl "hi") initState).1.assistantMessage.id ≠ m.id) ∧
      (appendStart (Sum.inl "hi") initState).1.assistantMessage.id ≠
        (appendStart (Sum.inl "hi") initState).1.userMessage.id ∧
      (∀ str, (Sum.inl "hi" : Sum String ChatMessage) = Sum.inl str →
        (appendStart (Sum.inl "hi") initState).1.userMessage.role = Role.user ∧
          (appendStart (Sum.inl "hi") initState).1.userMessage.parts =
            [textPart str]) :=
  claim6_append_appends_two (Sum.inl "hi") initState
    (fun m hm => absurd hm (List.not_mem_nil m))
    (fun u hu => by simp at hu)

/-- C1 counterexample: sending "hi" from the initial state with the single
progress payload "Hello!" and a successful settlement fires `onFinish`
exactly once, but the message it receives still has the empty text part —
not the last payload "Hello!" that the stored assistant message carries.
This refutes the claim that the finish callback's message carries the
assistant message's last known state. -/
theorem claim1_finish_stale_counterexample :
    (runAppend (Sum.inl "hi") ["Hello!"] Outcome.success initState).2.filterMap
        finishMessage =
      [{ id := nanoid 1, role := Role.assistant, parts := [textPart ""],
         createdAt := some 1 }] ∧
      findMsg (nanoid 1)
          (runAppend (Sum.inl "hi") ["Hello!"] Outcome.success
            initState).1.messages =
        some { id := nanoid 1, role := Role.assistant,
               parts := [textPart "Hello!"], createdAt := some 1 } ∧
      ([textPart ""] : List ChatMessagePart) ≠ [textPart "Hello!"] := by
  refine ⟨by decide, by decide, by decide⟩

/-- C1 amended: on every successful run `onFinish` is invoked exactly once,
but the message it receives is the placeholder in its creation-time state —
its sole text part is the empty string — while the assistant message stored
in the list carries the last payload delivered to the updater (the empty
string if no notification arrived). -/
theorem claim1_finish_once_with_placeholder (message : Sum String ChatMessage)
    (payloads : List String) (s : HookState)
    (h1 : IdsFrom s.messages s.nextId)
    (h2 : ∀ u, message = Sum.inr u → ∃ k, k < s.nextId ∧ u.id = nanoid k) :
    (runAppend message payloads Outcome.success s).2.filterMap finishMessage =
        [(appendStart message s).1.assistantMessage] ∧
      (appendStart message s).1.assistantMessage.parts = [textPart ""] ∧
      findMsg (appendStart message s).1.assistantMessageId
          (runAppend message payloads Outcome.success s).1.messages =
        some { (appendStart message s).1.assistantMessage with
               parts := [textPart (payloads.getLastD "")] } := by
  have hfind := findMsg_appendStart message s h1 h2
  refine ⟨?_, appendStart_assistant_parts message s, ?_⟩
  · simp [runAppend, applyProgressList_eq, appendSettle,
      filterMap_finishMessage_responses, finishMessage]
  · have hf := findMsg_foldl_updA (appendStart message s).1.assistantMessageId
      payloads (appendStart message s).2.messages
      (appendStart message s).1.assistantMessage hfind
    have hmsgs : (runAppend message payloads Outcome.success s).1.messages =
        payloads.foldl
          (fun ms p => ms.map (updA (appendStart message s).1.assistantMessageId p))
          (appendStart message s).2.messages := by
      simp [runAppend, applyProgressList_eq, appendSettle]
    rw [hmsgs, hf]
    rcases hlast : payloads.getLast? with _ | p
    · rw [List.getLastD_eq_getLast?, hlast]
      exact congrArg some ((chatMessage_eta_parts _ _
        (appendStart_assistant_parts message s)).symm)
    · rw [List.getLastD_eq_getLast?, hlast]
      rfl

/-- Witness for C1 amended: two payloads, then success — one finish event
with the empty placeholder, stored text "Hello!". -/
theorem claim1_finish_once_with_placeholder_witness :
    (runAppend (Sum.inl "hi") ["He", "Hello!"] Outcome.success
        initState).2.filterMap finishMessage =
        [(appendStart (Sum.inl "hi") initState).1.assistantMessage] ∧
      (appendStart (Sum.inl "hi") initState).1.assistantMessage.parts =
        [textPart ""] ∧
      findMsg (appendStart (Sum.inl "hi") initState).1.assistantMessageId
          (runAppend (Sum.inl "hi") ["He", "Hello!"] Outcome.success
            initState).1.messages =
        some { (appendStart (Sum.inl "hi") initState).1.assistantMessage with
               parts := [textPart ((["He", "Hello!"] : List String).getLastD "")] } :=
  claim1_finish_once_with_placeholder (Sum.inl "hi") ["He", "Hello!"] initState
    (fun m hm => absurd hm (List.not_mem_nil m))
    (fun u hu => by simp at hu)

/-- C2 counterexample: from the state right after `append("hi")`, calling
`stop` nulls the handle, yet a progress notification delivered afterwards
still overwrites the placeholder's text (here to "late") — refuting the
claim that post-cancel notifications are dropped by a handle check. -/
theorem claim2_late_update_applied_counterexample :
    (stop stateAfterStart).abortCtrl = none ∧
      findMsg (nanoid 1)
          (onDownloadProgressA (nanoid 1) "late" (stop stateAfterStart)).1.messages =
        some { id := nanoid 1, role := Role.assistant,
               parts := [textPart "late"], createdAt := some 1 } ∧
      ([textPart "late"] : List ChatMessagePart) ≠ [textPart ""] := by
  refine ⟨by decide, by decide, by decide⟩

/-- C2 amended: the progress handler performs no handle check — after
`cancel` has nulled the handle, a notification that is still delivered
performs exactly the same by-id overwrite and `onResponse` call as before
cancellation; suppression of late updates relies on the transport no longer
delivering events, not on the updater. -/
theorem claim2_no_handle_check (aid p : String) (s : HookState) :
    (stop s).abortCtrl = none ∧
      (onDownloadProgressA aid p (stop s)).1.messages =
        s.messages.map (updA aid p) ∧
      (onDownloadProgressA aid p (stop s)).2 = [AEvent.response p] :=
  ⟨stop_abortCtrl s, by rw [onDownloadProgressA, stop_messages], rfl⟩

/-- A single Variant B tick whose buffer's last parsed record is an item
appends that record's content to the placeholder's text. -/
theorem handleProgressB_item_step (parse : String → Except String ChatResponseN8N)
    (stringify : ChatResponseN8N → String) (aid role : String)
    (pre : List BMessage) (hpre : ∀ m ∈ pre, m.id ≠ aid)
    (b : String) (rs : List ChatResponseN8N) (r : ChatResponseN8N) (t : String)
    (hm : (linesOf b).mapM parse = Except.ok rs)
    (hl : rs.getLast? = some r) (ht : r.type = "item") :
    handleProgressB parse stringify aid b
        (pre ++ [⟨aid, role, [⟨"text", t⟩]⟩]) =
      Except.ok (pre ++ [⟨aid, role, [⟨"text", t ++ r.content⟩]⟩]) := by
  have hmap : (pre ++ [(⟨aid, role, [⟨"text", t⟩]⟩ : BMessage)]).map
      (updB aid r.content) = pre ++ [⟨aid, role, [⟨"text", t ++ r.content⟩]⟩] := by
    rw [List.map_append, map_updB_frame aid r.content pre hpre]
    simp [updB, jsStrOr_empty_right]
  unfold handleProgressB
  rw [hm]
  simp [hl, ht, hmap]

/-- C5: in Variant B the buffer is split on newlines, empty lines dropped,
every remaining line parsed, and when the last record is an item its content
is appended to the placeholder's existing text — two ticks whose buffers end
in item records with contents `c1` then `c2` leave the placeholder reading
its prior text followed by `c1 ++ c2`. -/
theorem claim5_item_appends_delta (parse : String → Except String ChatResponseN8N)
    (stringify : ChatResponseN8N → String) (aid b1 b2 role t0 : String)
    (rs1 rs2 : List ChatResponseN8N) (r1 r2 : ChatResponseN8N)
    (pre : List BMessage)
    (h1 : (linesOf b1).mapM parse = Except.ok rs1)
    (h2 : rs1.getLast? = some r1) (h3 : r1.type = "item")
    (h4 : (linesOf b2).mapM parse = Except.ok rs2)
    (h5 : rs2.getLast? = some r2) (h6 : r2.type = "item")
    (hpre : ∀ m ∈ pre, m.id ≠ aid) :
    processTicks parse stringify aid [b1, b2]
        (pre ++ [⟨aid, role, [⟨"text", t0⟩]⟩]) =
      (pre ++ [⟨aid, role, [⟨"text", t0 ++ r1.content ++ r2.content⟩]⟩], none) := by
  have s1 := handleProgressB_item_step parse stringify aid role pre hpre
    b1 rs1 r1 t0 h1 h2 h3
  have s2 := handleProgressB_item_step parse stringify aid role pre hpre
    b2 rs2 r2 (t0 ++ r1.content) h4 h5 h6
  simp [processTicks, s1, s2]

/-- Witness for C5: the two cumulative buffers of the specification's test —
an item line "Hi", then that line plus an item line " there" — leave the
placeholder reading "Hi there". -/
theorem claim5_item_appends_delta_witness :
    processTicks parseFix stringifyFix (nanoid 1)
        [itemLine1, itemLine1 ++ "\n" ++ itemLine2]
        ([⟨nanoid 0, "user", [⟨"text", "hi"⟩]⟩] ++
          [⟨nanoid 1, "assistant", [⟨"text", ""⟩]⟩]) =
      ([⟨nanoid 0, "user", [⟨"text", "hi"⟩]⟩] ++
        [⟨nanoid 1, "assistant", [⟨"text", "" ++ "Hi" ++ " there"⟩]⟩], none) :=
  claim5_item_appends_delta parseFix stringifyFix (nanoid 1) itemLine1
    (itemLine1 ++ "\n" ++ itemLine2) "assistant" ""
    [⟨"item", "Hi", none⟩] [⟨"item", "Hi", none⟩, ⟨"item", " there", none⟩]
    ⟨"item", "Hi", none⟩ ⟨"item", " there", none⟩
    [⟨nanoid 0, "user", [⟨"text", "hi"⟩]⟩]
    rfl (by decide) (by decide) rfl (by decide) (by decide) (by decide)

/-- C3 counterexample: one tick whose buffer is a single error line makes the
handler throw the serialized record, which the submit flow catches and only
logs — the conversation's error state (never declared, never written by the
component) remains unset, refuting the claim that it is set. -/
theorem claim3_no_error_state_counterexample :
    (runBSubmit parseFix stringifyFix "hi" 0 [errLine] ⟨[], none⟩).1.error =
        none ∧
      (runBSubmit parseFix stringifyFix "hi" 0 [errLine] ⟨[], none⟩).2 =
        some (stringifyFix ⟨"error", "boom", none⟩) ∧
      (runBSubmit parseFix stringifyFix "hi" 0 [errLine] ⟨[], none⟩).1.messages =
        [⟨nanoid 0, "user", [⟨"text", "hi"⟩]⟩,
         ⟨nanoid 1, "assistant", [⟨"text", ""⟩]⟩] := by
  refine ⟨by decide, by decide, by decide⟩

/-- C3 amended: when a tick's buffer has a last record of type "error", the
handler raises a failure carrying the serialized record, that tick and all
later ticks append no text (the message list is returned unchanged from the
failing tick on), and the submit flow's catch block leaves the conversation's
error state untouched — the component records the failure nowhere, only
logging it. -/
theorem claim3_error_raised_not_recorded
    (parse : String → Except String ChatResponseN8N)
    (stringify : ChatResponseN8N → String) (aid b : String)
    (rs : List ChatResponseN8N) (r : ChatResponseN8N)
    (msgs : List BMessage) (rest : List String)
    (h1 : (linesOf b).mapM parse = Except.ok rs)
    (h2 : rs.getLast? = some r) (h3 : r.type = "error") :
    handleProgressB parse stringify aid b msgs = Except.error (stringify r) ∧
      processTicks parse stringify aid (b :: rest) msgs =
        (msgs, some (stringify r)) ∧
      (∀ text n ticks s, (runBSubmit parse stringify text n ticks s).1.error =
        s.error) := by
  have hstep : handleProgressB parse stringify aid b msgs =
      Except.error (stringify r) := by
    unfold handleProgressB
    rw [h1]
    simp [h2, h3]
  refine ⟨hstep, by simp [processTicks, hstep], fun text n ticks s => rfl⟩

/-- Witness for C3 amended at the concrete error buffer. -/
theorem claim3_error_raised_not_recorded_witness :
    handleProgressB parseFix stringifyFix (nanoid 1) errLine
        [⟨nanoid 0, "user", [⟨"text", "hi"⟩]⟩,
         ⟨nanoid 1, "assistant", [⟨"text", ""⟩]⟩] =
        Except.error (stringifyFix ⟨"error", "boom", none⟩) ∧
      processTicks parseFix stringifyFix (nanoid 1) (errLine :: [])
          [⟨nanoid 0, "user", [⟨"text", "hi"⟩]⟩,
           ⟨nanoid 1, "assistant", [⟨"text", ""⟩]⟩] =
        ([⟨nanoid 0, "user", [⟨"text", "hi"⟩]⟩,
          ⟨nanoid 1, "assistant", [⟨"text", ""⟩]⟩],
         some (stringifyFix ⟨"error", "boom", none⟩)) ∧
      (∀ text n ticks s,
        (runBSubmit parseFix stringifyFix text n ticks s).1.error = s.error) :=
  claim3_error_raised_not_recorded parseFix stringifyFix (nanoid 1) errLine
    [⟨"error", "boom", none⟩] ⟨"error", "boom", none⟩
    [⟨nanoid 0, "user", [⟨"text", "hi"⟩]⟩,
     ⟨nanoid 1, "assistant", [⟨"text", ""⟩]⟩] []
    rfl (by decide) (by decide)

end OpenChat
